import Mathlib

/-!
Shallow embedding of the albert JetBrains-projects plugin (src/__init__.py).

Python-level effects are made explicit:
* exceptions are modelled by `Except PyError`;
* the file system and host services (`Path.glob`, `ElementTree.parse` +
  `findall`, `shutil.which`, `Path.exists`, `Path.home()`) are an oracle
  record `FSState` so that theorems can quantify over every host state;
* the host `Matcher` is an oracle `String → Bool` (one per query).
-/

/-- The Python exception kinds this module can raise or catch. -/
inductive PyError where
  | typeError
  | valueError
  | parseError
  | fileNotFoundError
deriving DecidableEq, Repr

/-- `leadsWith pat s` : `pat` is an initial run of `s` (Python `str.startswith`,
used to model the scanning of `str.replace`). -/
def leadsWith : List Char → List Char → Bool
  | [], _ => true
  | _ :: _, [] => false
  | p :: ps, c :: cs => p == c && leadsWith ps cs

/-- Core of Python `str.replace`: replace every non-overlapping occurrence of
`pat` in `s` by `rep`, scanning left to right.  The `fuel` argument only
bounds the recursion (each step consumes at least one character of `s`, so
`s.length` fuel is always enough and the `0` case is unreachable from
`pyReplace`).  The module only ever calls `replace` with the non-empty
patterns `"$USER_HOME$"` and `".iml"`, so the empty-pattern behaviour of
Python (interleaving) is not modelled: an empty `pat` is returned unchanged by
the guard. -/
def replaceAux (pat rep : List Char) : Nat → List Char → List Char
  | _, [] => []
  | 0, s => s
  | fuel + 1, c :: cs =>
    if leadsWith pat (c :: cs) && !pat.isEmpty then
      rep ++ replaceAux pat rep fuel (cs.drop (pat.length - 1))
    else
      c :: replaceAux pat rep fuel cs

/-- Python `s.replace(pat, rep)` for non-empty `pat`. -/
def pyReplace (s pat rep : String) : String :=
  ⟨replaceAux pat.data rep.data s.data.length s.data⟩

/-- Split a character list at every `'/'` (components of a POSIX path,
separators not kept; like Python `s.split('/')`). -/
def splitSlash : List Char → List (List Char)
  | [] => [[]]
  | c :: cs =>
    if c = '/' then [] :: splitSlash cs
    else
      match splitSlash cs with
      | [] => [[c]]
      | g :: gs => (c :: g) :: gs

/-- `pathlib.Path(s).name`: the last path component, after pathlib drops empty
components (repeated or trailing slashes) and single-dot components; `""` when
no component remains. -/
def pathName (s : String) : String :=
  ⟨(((splitSlash s.data).filter (fun g => !g.isEmpty && g ≠ ['.'])).getLast?).getD []⟩

/-- Value of a non-empty run of decimal digits, `none` on a non-digit. -/
def digitsValAux : List Char → Nat → Option Nat
  | [], acc => some acc
  | c :: cs, acc =>
    if c.isDigit then digitsValAux cs (acc * 10 + (c.toNat - 48)) else none

/-- Python `int(s)` for a plain decimal string: an optional sign followed by at
least one digit.  (Python also strips whitespace and allows underscores; the
recent-projects files only ever hold plain digit strings, which this models
exactly: on any other string Python raises `ValueError` and so does the model.) -/
def pyParseInt (s : String) : Option Int :=
  match s.data with
  | [] => none
  | '-' :: rest => if rest = [] then none else (digitsValAux rest 0).map (fun n => -(n : Int))
  | '+' :: rest => if rest = [] then none else (digitsValAux rest 0).map (fun n => (n : Int))
  | l => (digitsValAux l 0).map (fun n => (n : Int))

/-- Python `int(x)` where `x` is the `last_opened` variable (a `str` or `None`):
`int(None)` raises `TypeError`, `int` of a non-numeric string raises
`ValueError`. -/
def pyInt : Option String → Except PyError Int
  | none => .error .typeError
  | some s =>
    match pyParseInt s with
    | some n => .ok n
    | none => .error .valueError

/-- Python `"%s" % x` where `x : Optional[str]` (`str(None) = "None"`). -/
def pyStrOfOpt : Option String → String
  | none => "None"
  | some s => s

/-- Which Python class an IDE object is an instance of: `JetBrainsIde` itself
or its subclass `Rider` (which overrides `_get_recent_projects_entries`). -/
inductive IdeKind where
  | generic
  | rider
deriving DecidableEq, Repr

/-- The `JetBrainsIde` object state after `__init__`: `binary` already holds
the result of `_find_binary` (`None` when no candidate was found). -/
structure JetBrainsIde where
  name : String
  icon : String
  config_dir_prefixes : List String
  binary : Option String
  kind : IdeKind
deriving DecidableEq, Repr

/-- The `Project` dataclass. -/
structure Project where
  name : String
  path : String
  last_opened : Int
  ide : JetBrainsIde
deriving DecidableEq, Repr

/-- The `<option name='projectOpenTimestamp'>` element found (or not) inside a
recent-project `<entry>`: `value` is its `value` attribute when present. -/
structure TsTag where
  value : Option String
deriving DecidableEq, Repr

/-- One `<entry>` element selected by `findall(".//component[...]//entry[@key]")`:
the `key` attribute is guaranteed present by the `[@key]` filter;
`timestampTag` is the result of `entry.find(".//option[@name='projectOpenTimestamp']")`. -/
structure Entry where
  key : String
  timestampTag : Option TsTag
deriving DecidableEq, Repr

/-- Host/file-system oracle for one query invocation.
* `home` — `str(Path.home())`;
* `globConfigDirs p` — `list(_config_dir().glob(p ++ "*/"))` as path strings
  (the platform-specific config root is folded into the oracle);
* `readRecentEntries file comp` — result of `ElementTree.parse(file)` followed
  by `findall` for component name `comp`: the entry list, or the raised error
  (`FileNotFoundError` for a missing file, `ParseError` for malformed XML);
* `imlGlob d` — `list(Path(d).glob("*.iml"))` as plain file names;
* `pathExists p` — `Path(p).exists()`. -/
structure FSState where
  home : String
  globConfigDirs : String → List String
  readRecentEntries : String → String → Except PyError (List Entry)
  imlGlob : String → List String
  pathExists : String → Bool

/-- `_find_binary`: the first candidate name for which `which` is truthy. -/
def find_binary (which : String → Bool) : List String → Option String
  | [] => none
  | b :: bs => if which b then some b else find_binary which bs

/-- The recent-projects file name read by `_get_recent_projects_entries`
(overridden by `Rider`). -/
def recentFileName : IdeKind → String
  | .generic => "recentProjects.xml"
  | .rider => "recentSolutions.xml"

/-- The component name selected by the `findall` expression (overridden by
`Rider`). -/
def recentComponentName : IdeKind → String
  | .generic => "RecentProjectsManager"
  | .rider => "RiderRecentProjectsManager"

/-- `_get_recent_projects_entries` (with the `Rider` override folded in via
`kind`): parse `<config_dir>/options/<file>` and select the entries. -/
def get_recent_projects_entries (fs : FSState) (kind : IdeKind) (configDir : String) :
    Except PyError (List Entry) :=
  fs.readRecentEntries (configDir ++ "/options/" ++ recentFileName kind)
    (recentComponentName kind)

/-- The body of the per-entry iteration of `_parse_project_entries`:

```
project_path = entry.attrib["key"].replace("$USER_HOME$", str(Path.home()))
project_name = Path(project_path).name
files = Path(project_path + "/.idea").glob("*.iml")
tag_opened = entry.find(".//option[@name='projectOpenTimestamp']")
last_opened = tag_opened.attrib["value"] if ... else None
if project_path and last_opened:
    projects.append(Project(..., last_opened=int(last_opened), ...))
for file in files:
    name = file.name.replace(".iml", "")
    if name != project_name:
        projects.append(Project(name, project_path, int(last_opened), self))
```

Note the `for` loop calls `int(last_opened)` even when `last_opened` is `None`
or non-numeric (the `if` guard only protects the first `append`).
`imlStep` is the body of that `for` loop. -/
def imlStep (ide : JetBrainsIde) (project_name project_path : String)
    (last_opened : Option String) (acc : List Project) (file : String) :
    Except PyError (List Project) := do
  let nm := pyReplace file ".iml" ""
  if nm ≠ project_name then do
    let n ← pyInt last_opened
    pure (acc ++ [Project.mk nm project_path n ide])
  else
    pure acc

/-- The per-entry body of `_parse_project_entries` (see `imlStep` for the
quoted source and the `int(last_opened)` caveat). -/
def parseEntry (fs : FSState) (ide : JetBrainsIde) (entry : Entry) :
    Except PyError (List Project) := do
  let project_path := pyReplace entry.key "$USER_HOME$" fs.home
  let project_name := pathName project_path
  let files := fs.imlGlob (project_path ++ "/.idea")
  let last_opened : Option String := entry.timestampTag.bind (fun t => t.value)
  let dirPart ←
    if project_path ≠ "" ∧ ∃ s, last_opened = some s ∧ s ≠ "" then do
      let n ← pyInt last_opened
      pure [Project.mk project_name project_path n ide]
    else
      pure ([] : List Project)
  files.foldlM (imlStep ide project_name project_path last_opened) dirPart

/-- `_parse_project_entries`: the per-entry results accumulated in order; a
Python exception anywhere aborts the whole call. -/
def parse_project_entries (fs : FSState) (ide : JetBrainsIde) (entries : List Entry) :
    Except PyError (List Project) :=
  entries.foldlM
    (fun acc entry => do
      let ps ← parseEntry fs ide entry
      pure (acc ++ ps))
    []

/-- Lexicographic code-point comparison of character lists: exactly how
Python compares two strings (and `pathlib` paths, which compare by their
string form). -/
def strLeAux : List Char → List Char → Bool
  | [], _ => true
  | _ :: _, [] => false
  | a :: as, b :: bs =>
    if a.toNat < b.toNat then true
    else if b.toNat < a.toNat then false
    else strLeAux as bs

/-- Python's `s1 <= s2` on strings: lexicographic by code point. -/
def strLe (a b : String) : Bool :=
  strLeAux a.data b.data

/-- `sorted(dirs)[-1]`: the last element of the ascending lexicographic sort
(a stable sort, like Python's, though stability cannot affect the last
element's value). -/
def pySortedLast (dirs : List String) : String :=
  ((dirs.insertionSort (fun a b => strLe a b = true)).getLast?).getD ""

/-- The `try`-block of `list_projects` for the selected config directory `d`,
with its `except (ElementTree.ParseError, FileNotFoundError): return []`
handler: those two errors give `[]`, any other exception propagates. -/
def tryReadDir (fs : FSState) (ide : JetBrainsIde) (d : String) :
    Except PyError (List Project) :=
  match (do
      let entries ← get_recent_projects_entries fs ide.kind d
      parse_project_entries fs ide entries : Except PyError (List Project)) with
  | .ok ps => .ok ps
  | .error e =>
    if e = .parseError ∨ e = .fileNotFoundError then .ok [] else .error e

/-- The prefix loop of `list_projects`: the first prefix whose glob is
non-empty is handled (and the function returns there); otherwise the next
prefix is tried; `[]` when the prefixes run out. -/
def listProjectsGo (fs : FSState) (ide : JetBrainsIde) :
    List String → Except PyError (List Project)
  | [] => .ok []
  | pfx :: rest =>
    if fs.globConfigDirs pfx = [] then listProjectsGo fs ide rest
    else tryReadDir fs ide (pySortedLast (fs.globConfigDirs pfx))

/-- `JetBrainsIde.list_projects`. -/
def list_projects (fs : FSState) (ide : JetBrainsIde) : Except PyError (List Project) :=
  listProjectsGo fs ide ide.config_dir_prefixes

/-- `JetBrainsIde(name, icon, config_dir_prefixes, binaries)` — the
constructor runs `_find_binary` on the candidate list; `which` is the host
command-lookup oracle. -/
def mkIde (which : String → Bool) (name icon : String)
    (config_dir_prefixes binaries : List String) (kind : IdeKind) : JetBrainsIde :=
  { name := name
    icon := icon
    config_dir_prefixes := config_dir_prefixes
    binary := find_binary which binaries
    kind := kind }

/-- The static `editors` table built inside `get_editors` (in source order),
before the `binary is not None` filter.  `icons_dir` is the plugin's icon
directory. -/
def editorsTable (which : String → Bool) (icons_dir : String) : List JetBrainsIde :=
  [ mkIde which "Android Studio" (icons_dir ++ "/androidstudio.svg")
      ["Google/AndroidStudio"]
      ["studio", "androidstudio", "android-studio", "android-studio-canary",
       "jdk-android-studio", "android-studio-system-jdk"] .generic,
    mkIde which "Aqua" (icons_dir ++ "/aqua.svg")
      ["JetBrains/Aqua"] ["aqua", "aqua-eap"] .generic,
    mkIde which "CLion" (icons_dir ++ "/clion.svg")
      ["JetBrains/CLion"] ["clion", "clion-eap"] .generic,
    mkIde which "DataGrip" (icons_dir ++ "/datagrip.svg")
      ["JetBrains/DataGrip"] ["datagrip", "datagrip-eap"] .generic,
    mkIde which "DataSpell" (icons_dir ++ "/dataspell.svg")
      ["JetBrains/DataSpell"] ["dataspell", "dataspell-eap"] .generic,
    mkIde which "GoLand" (icons_dir ++ "/goland.svg")
      ["JetBrains/GoLand"] ["goland", "goland-eap"] .generic,
    mkIde which "IntelliJ IDEA" (icons_dir ++ "/idea.svg")
      ["JetBrains/IntelliJIdea", "JetBrains/Idea"]
      ["idea", "idea.sh", "idea-ultimate", "idea-ce-eap", "idea-ue-eap",
       "intellij-idea-ce", "intellij-idea-ce-eap", "intellij-idea-ue-bundled-jre",
       "intellij-idea-ultimate-edition", "intellij-idea-community-edition-jre",
       "intellij-idea-community-edition-no-jre"] .generic,
    mkIde which "PhpStorm" (icons_dir ++ "/phpstorm.svg")
      ["JetBrains/PhpStorm"] ["phpstorm", "phpstorm-eap"] .generic,
    mkIde which "PyCharm" (icons_dir ++ "/pycharm.svg")
      ["JetBrains/PyCharm"] ["charm", "pycharm", "pycharm-eap", "pycharm-professional"] .generic,
    mkIde which "Rider" (icons_dir ++ "/rider.svg")
      ["JetBrains/Rider"] ["rider", "rider-eap"] .rider,
    mkIde which "RubyMine" (icons_dir ++ "/rubymine.svg")
      ["JetBrains/RubyMine"]
      ["rubymine", "rubymine-eap", "jetbrains-rubymine", "jetbrains-rubymine-eap"] .generic,
    mkIde which "RustRover" (icons_dir ++ "/rustrover.svg")
      ["JetBrains/RustRover"] ["rustrover", "rustrover-eap"] .generic,
    mkIde which "WebStorm" (icons_dir ++ "/webstorm.svg")
      ["JetBrains/WebStorm"] ["webstorm", "webstorm-eap"] .generic,
    mkIde which "Writerside" (icons_dir ++ "/writerside.svg")
      ["JetBrains/Writerside"] ["writerside", "writerside-eap"] .generic ]

/-- `JetBrainsIde.get_editors`: `[e for e in editors if e.binary is not None]`. -/
def get_editors (which : String → Bool) (icons_dir : String) : List JetBrainsIde :=
  (editorsTable which icons_dir).filter (fun e => e.binary.isSome)

/-- `Plugin.__init__` reading of the `match_path` config key:
`readConfig` gives `None` when the key is unset, in which case the flag is
`False`. -/
def initMatchPath (stored : Option Bool) : Bool :=
  stored.getD false

/-- The per-editor step of the `Plugin._get_projects` comprehension:
extend the accumulated list with this editor's projects whose
`Path(project.path).exists()`. -/
def gpStep (fs : FSState) (acc : List Project) (ed : JetBrainsIde) :
    Except PyError (List Project) := do
  let ps ← list_projects fs ed
  pure (acc ++ ps.filter (fun p => fs.pathExists p.path))

/-- `Plugin._get_projects`: the per-editor project lists, in editor order,
each filtered by `Path(project.path).exists()`. -/
def get_projects (fs : FSState) (editors : List JetBrainsIde) :
    Except PyError (List Project) :=
  editors.foldlM (gpStep fs) []

/-- The `matches` list-comprehension of `Plugin.items`:
`matcher.match(*[p.name, p.path] if self._match_path else [p.name])`, where a
call on several strings matches when any of them matches (`m` is the host
matcher built from the query and the fuzzy flag). -/
def matchedProjects (match_path : Bool) (m : String → Bool) (projects : List Project) :
    List Project :=
  projects.filter (fun p => (if match_path then [p.name, p.path] else [p.name]).any m)

/-- `matches.sort(key=lambda p: p.last_opened, reverse=True)`: a stable sort
by descending `last_opened` (Python's sort is stable and `reverse=True` keeps
ties in original order). -/
def sortLastOpenedDesc (l : List Project) : List Project :=
  l.insertionSort (fun a b => b.last_opened ≤ a.last_opened)

/-- One albert `Action`: its id, its user-visible text, and the argv passed to
`runDetachedProcess` (the first slot holds `editor.binary`, an
`Optional[str]`). -/
structure ItemAction where
  id : String
  text : String
  argv : List (Option String)
deriving DecidableEq, Repr

/-- An albert `StandardItem` as built by `_make_item`; `iconPath` is the path
the lazy `icon_factory` resolves. -/
structure Item where
  id : String
  text : String
  subtext : String
  input_action_text : String
  iconPath : String
  actions : List ItemAction
deriving DecidableEq, Repr

/-- The body of the staticmethod `_make_item(editor, project)` as written. -/
def make_item (editor : JetBrainsIde) (project : Project) : Item :=
  { id := pyStrOfOpt editor.binary ++ "-" ++ project.path ++ "-" ++ toString project.last_opened
    text := project.name
    subtext := project.path
    input_action_text := project.name
    iconPath := editor.icon
    actions := [{ id := "Open"
                  text := "Open in " ++ editor.name
                  argv := [editor.binary, some project.path] }] }

/-- The call site `self._make_item(project)` in `Plugin.items`: `_make_item`
is a staticmethod with two required positional parameters `(editor, project)`,
so this call supplies only `editor` and Python raises
`TypeError: _make_item() missing 1 required positional argument: 'project'`
before the body of `_make_item` ever runs. -/
def make_item_call (_project : Project) : Except PyError Item :=
  .error .typeError

/-- `Plugin.items`: build the matcher, filter `_get_projects()`, sort by
descending `last_opened`, then build one item per match via the
`self._make_item(project)` call. -/
def items (editors : List JetBrainsIde) (match_path : Bool) (fs : FSState)
    (m : String → Bool) : Except PyError (List Item) := do
  let projects ← get_projects fs editors
  let matched := matchedProjects match_path m projects
  (sortLastOpenedDesc matched).mapM make_item_call

/-- The optional Project contributed by one `.iml` file once the shared
timestamp parsed to `n` (proof-side abbreviation for the effect of the
`for file in files` loop body on the result list). -/
def modProjOf (ide : JetBrainsIde) (project_name project_path : String) (n : Int)
    (file : String) : Option Project :=
  if pyReplace file ".iml" "" ≠ project_name then
    some (Project.mk (pyReplace file ".iml" "") project_path n ide)
  else
    none

/-! ## Concrete host states used to exercise the embedding -/

/-- A `PyCharm` object as `__init__` leaves it on a host where `which`
found `pycharm`. -/
def pycharmIde : JetBrainsIde :=
  { name := "PyCharm"
    icon := "icons/pycharm.svg"
    config_dir_prefixes := ["JetBrains/PyCharm"]
    binary := some "pycharm"
    kind := .generic }

/-- A `CLion` object as `__init__` leaves it on a host where `which`
found `clion`. -/
def clionIde : JetBrainsIde :=
  { name := "CLion"
    icon := "icons/clion.svg"
    config_dir_prefixes := ["JetBrains/CLion"]
    binary := some "clion"
    kind := .generic }

/-- A neutral host state: empty config globs, empty recent files, no `.iml`
files, every path existing. -/
def baseFS : FSState :=
  { home := "/home/u"
    globConfigDirs := fun _ => []
    readRecentEntries := fun _ _ => .ok []
    imlGlob := fun _ => []
    pathExists := fun _ => true }

/-- Host state whose PyCharm recent-projects file holds one entry with no
`projectOpenTimestamp` tag while `/home/u/proj/.idea` holds `extra.iml`. -/
def fsNoTs : FSState :=
  { baseFS with
    globConfigDirs := fun p =>
      if p = "JetBrains/PyCharm" then ["/home/u/.config/JetBrains/PyCharm2024.1"] else []
    readRecentEntries := fun f _ =>
      if f = "/home/u/.config/JetBrains/PyCharm2024.1/options/recentProjects.xml" then
        .ok [{ key := "/home/u/proj", timestampTag := none }]
      else .ok []
    imlGlob := fun d => if d = "/home/u/proj/.idea" then ["extra.iml"] else [] }

/-- Host state where CLion's recent-projects XML is malformed while PyCharm's
is fine. -/
def fsIsol : FSState :=
  { baseFS with
    globConfigDirs := fun p =>
      if p = "JetBrains/CLion" then ["/c/dir"]
      else if p = "JetBrains/PyCharm" then ["/p/dir"] else []
    readRecentEntries := fun f _ =>
      if f = "/c/dir/options/recentProjects.xml" then .error .parseError
      else if f = "/p/dir/options/recentProjects.xml" then
        .ok [{ key := "/home/u/ok", timestampTag := some { value := some "7" } }]
      else .ok [] }

/-- Host state with one entry whose `projectOpenTimestamp` tag is present but
lacks the `value` attribute, and no `.iml` files anywhere. -/
def fsTagNoValueNoIml : FSState :=
  { baseFS with
    globConfigDirs := fun p => if p = "JetBrains/PyCharm" then ["/p/dir"] else []
    readRecentEntries := fun f _ =>
      if f = "/p/dir/options/recentProjects.xml" then
        .ok [{ key := "/home/u/proj", timestampTag := some { value := none } }]
      else .ok [] }

/-- Like `fsTagNoValueNoIml` but `/home/u/proj/.idea` additionally holds
`other.iml`. -/
def fsTagNoValue : FSState :=
  { fsTagNoValueNoIml with
    imlGlob := fun d => if d = "/home/u/proj/.idea" then ["other.iml"] else [] }

/-- Host state whose single PyCharm entry is the project `/home/u/work/app`
opened at 1700000000. -/
def fsOneApp : FSState :=
  { baseFS with
    globConfigDirs := fun p => if p = "JetBrains/PyCharm" then ["/p/dir"] else []
    readRecentEntries := fun f _ =>
      if f = "/p/dir/options/recentProjects.xml" then
        .ok [{ key := "/home/u/work/app", timestampTag := some { value := some "1700000000" } }]
      else .ok [] }

/-- Host state where the project directory `/r/a.iml` has a module file
`a.iml.iml` (base name `a.iml`, equal to the directory-derived name). -/
def fsC5 : FSState :=
  { baseFS with imlGlob := fun d => if d = "/r/a.iml/.idea" then ["a.iml.iml"] else [] }

/-- The recent-projects entry for `/r/a.iml` with timestamp 5. -/
def entryC5 : Entry := { key := "/r/a.iml", timestampTag := some { value := some "5" } }

/-- Host state where the project directory `/q/app` has three module files:
`foo.iml`, `app.iml` (base name equal to the directory-derived name) and
`bar.iml`, in glob order. -/
def fsC5w : FSState :=
  { baseFS with
    imlGlob := fun d =>
      if d = "/q/app/.idea" then ["foo.iml", "app.iml", "bar.iml"] else [] }

/-- Host state with three version-named PyCharm config directories. -/
def fsC6 : FSState :=
  { baseFS with
    globConfigDirs := fun p =>
      if p = "JetBrains/PyCharm" then
        ["/cfg/PyCharm2023.2", "/cfg/PyCharm2024.1", "/cfg/PyCharm2023.3"]
      else [] }

/-- Host state with three projects last opened at 100, 300 and 200 (in file
order). -/
def fsC7 : FSState :=
  { baseFS with
    globConfigDirs := fun p => if p = "JetBrains/PyCharm" then ["/p/dir"] else []
    readRecentEntries := fun f _ =>
      if f = "/p/dir/options/recentProjects.xml" then
        .ok [{ key := "/h/a", timestampTag := some { value := some "100" } },
             { key := "/h/b", timestampTag := some { value := some "300" } },
             { key := "/h/c", timestampTag := some { value := some "200" } }]
      else .ok [] }

/-- Host state with the single project `/srv/special` (name `special`). -/
def fsC8 : FSState :=
  { baseFS with
    globConfigDirs := fun p => if p = "JetBrains/PyCharm" then ["/p/dir"] else []
    readRecentEntries := fun f _ =>
      if f = "/p/dir/options/recentProjects.xml" then
        .ok [{ key := "/srv/special", timestampTag := some { value := some "9" } }]
      else .ok [] }

/-- Host state with two parsed projects of which only `/live` still exists on
disk. -/
def fsC9 : FSState :=
  { baseFS with
    globConfigDirs := fun p => if p = "JetBrains/PyCharm" then ["/p/dir"] else []
    readRecentEntries := fun f _ =>
      if f = "/p/dir/options/recentProjects.xml" then
        .ok [{ key := "/live", timestampTag := some { value := some "1" } },
             { key := "/gone", timestampTag := some { value := some "2" } }]
      else .ok []
    pathExists := fun p => p = "/live" }

/-- A host `which` that only finds `pycharm` and `rider`. -/
def whichC10 : String → Bool := fun b => b == "pycharm" || b == "rider"

/-! ## Characterisation lemmas -/

theorem leadsWith_self_append (p t : List Char) : leadsWith p (p ++ t) = true := by
  induction p with
  | nil => rfl
  | cons c cs ih => simpa [leadsWith] using ih

theorem replaceAux_of_not_mem {p0 : Char} (pr rep : List Char) :
    ∀ (s : List Char) (fuel : Nat), p0 ∉ s → s.length ≤ fuel →
      replaceAux (p0 :: pr) rep fuel s = s := by
  intro s
  induction s with
  | nil =>
    intro fuel _ _
    cases fuel <;> rfl
  | cons c cs ih =>
    intro fuel h hlen
    simp only [List.mem_cons, not_or] at h
    obtain ⟨hc, hcs⟩ := h
    cases fuel with
    | zero => simp [List.length_cons] at hlen
    | succ f =>
      rw [replaceAux]
      have hl : leadsWith (p0 :: pr) (c :: cs) = false := by
        simp [leadsWith, hc]
      rw [List.length_cons] at hlen
      simp [hl, ih f hcs (by omega)]

theorem replaceAux_cons_self (p0 : Char) (pr rep t : List Char) (fuel : Nat) :
    replaceAux (p0 :: pr) rep (fuel + 1) ((p0 :: pr) ++ t) =
      rep ++ replaceAux (p0 :: pr) rep fuel t := by
  have h := leadsWith_self_append (p0 :: pr) t
  rw [List.cons_append, replaceAux]
  rw [List.cons_append] at h
  simp only [h, List.isEmpty_cons, Bool.not_false, Bool.and_true, if_true,
    List.length_cons, Nat.add_sub_cancel]
  rw [List.drop_left]

theorem pyReplace_key_userHome (home : String) :
    pyReplace "$USER_HOME$/work/app" "$USER_HOME$" home = home ++ "/work/app" := by
  apply String.ext
  show replaceAux ("$USER_HOME$" : String).data home.data
      ("$USER_HOME$/work/app" : String).data.length
      ("$USER_HOME$/work/app" : String).data = (home ++ "/work/app").data
  have e1 : ("$USER_HOME$/work/app" : String).data =
      ('$' :: ("USER_HOME$" : String).data) ++ ("/work/app" : String).data := by decide
  have e2 : ("$USER_HOME$" : String).data = '$' :: ("USER_HOME$" : String).data := by decide
  have elen : ("$USER_HOME$/work/app" : String).data.length = 19 + 1 := by decide
  rw [String.data_append, elen, e1, e2, replaceAux_cons_self]
  congr 1

theorem splitSlash_ne_nil : ∀ l : List Char, splitSlash l ≠ [] := by
  intro l
  induction l with
  | nil => simp [splitSlash]
  | cons c cs ih =>
    rw [splitSlash]
    by_cases hc : c = '/'
    · simp [hc]
    · rw [if_neg hc]
      cases h : splitSlash cs with
      | nil => simp
      | cons g gs => simp

theorem splitSlash_append (a b : List Char) :
    splitSlash (a ++ '/' :: b) = splitSlash a ++ splitSlash b := by
  induction a with
  | nil => simp [splitSlash]
  | cons c cs ih =>
    by_cases hc : c = '/'
    · subst hc
      rw [List.cons_append, splitSlash, if_pos rfl, ih, splitSlash, if_pos rfl,
        List.cons_append]
    · cases h : splitSlash cs with
      | nil => exact absurd h (splitSlash_ne_nil cs)
      | cons g gs =>
        rw [List.cons_append, splitSlash, if_neg hc, ih, h, List.cons_append,
          splitSlash, if_neg hc, h, List.cons_append]

theorem pathName_slash_work_app (a : String) : pathName (a ++ "/work/app") = "app" := by
  apply String.ext
  show (((splitSlash (a ++ "/work/app").data).filter
      (fun g => !g.isEmpty && g ≠ ['.'])).getLast?).getD [] = ("app" : String).data
  have e0 : ("/work/app" : String).data = '/' :: ("work/app" : String).data := by decide
  have e : (a ++ ("/work/app" : String)).data = a.data ++ '/' :: ("work/app" : String).data := by
    rw [String.data_append, e0]
  rw [e, splitSlash_append, List.filter_append]
  have e2 : (splitSlash ("work/app" : String).data).filter (fun g => !g.isEmpty && g ≠ ['.']) =
      [("work" : String).data, ("app" : String).data] := by decide
  have e3 : ([("work" : String).data, ("app" : String).data].getLast?) =
      some (("app" : String).data) := by decide
  rw [e2, List.getLast?_append, e3]
  rfl

theorem imlFold_ok (ide : JetBrainsIde) (project_name project_path : String)
    (lo : Option String) (n : Int) (h : pyInt lo = .ok n) :
    ∀ (files : List String) (acc : List Project),
      files.foldlM (imlStep ide project_name project_path lo) acc =
        .ok (acc ++ files.filterMap (modProjOf ide project_name project_path n)) := by
  intro files
  induction files with
  | nil =>
    intro acc
    simp only [List.foldlM_nil, List.filterMap_nil, List.append_nil]
    rfl
  | cons f rest ih =>
    intro acc
    rw [List.foldlM_cons]
    by_cases hf : pyReplace f ".iml" "" ≠ project_name
    · have hstep : imlStep ide project_name project_path lo acc f =
          .ok (acc ++ [Project.mk (pyReplace f ".iml" "") project_path n ide]) := by
        simp [imlStep, hf, h]
      rw [hstep]
      show rest.foldlM (imlStep ide project_name project_path lo) _ = _
      rw [ih]
      simp [modProjOf, hf, List.append_assoc]
    · have hstep : imlStep ide project_name project_path lo acc f = .ok acc := by
        simp [imlStep, hf]
        rfl
      rw [hstep]
      show rest.foldlM (imlStep ide project_name project_path lo) _ = _
      rw [ih]
      simp [modProjOf, hf]

theorem parseEntry_ok (fs : FSState) (ide : JetBrainsIde) (entry : Entry)
    (s : String) (n : Int)
    (h1 : entry.timestampTag.bind (fun t => t.value) = some s)
    (h2 : s ≠ "") (h3 : pyParseInt s = some n)
    (h4 : pyReplace entry.key "$USER_HOME$" fs.home ≠ "") :
    parseEntry fs ide entry =
      .ok (Project.mk (pathName (pyReplace entry.key "$USER_HOME$" fs.home))
            (pyReplace entry.key "$USER_HOME$" fs.home) n ide ::
          (fs.imlGlob (pyReplace entry.key "$USER_HOME$" fs.home ++ "/.idea")).filterMap
            (modProjOf ide (pathName (pyReplace entry.key "$USER_HOME$" fs.home))
              (pyReplace entry.key "$USER_HOME$" fs.home) n)) := by
  have hlo : pyInt (entry.timestampTag.bind fun t => t.value) = .ok n := by
    rw [h1]
    simp [pyInt, h3]
  rw [parseEntry]
  rw [if_pos ⟨h4, s, h1, h2⟩]
  rw [hlo]
  show (fs.imlGlob _).foldlM _ _ = _
  rw [imlFold_ok _ _ _ _ n hlo]
  rfl

theorem filterMap_modProjOf_length (ide : JetBrainsIde)
    (project_name project_path : String) (n : Int) :
    ∀ files : List String,
      (files.filterMap (modProjOf ide project_name project_path n)).length =
        (files.filter (fun f => pyReplace f ".iml" "" ≠ project_name)).length := by
  intro files
  induction files with
  | nil => rfl
  | cons f rest ih =>
    by_cases h : pyReplace f ".iml" "" = project_name
    · simp [List.filterMap_cons, List.filter_cons, modProjOf, h, ih]
    · simp [List.filterMap_cons, List.filter_cons, modProjOf, h, ih]

theorem gpFold_path_exists (fs : FSState) :
    ∀ (eds : List JetBrainsIde) (acc ps : List Project),
      eds.foldlM (gpStep fs) acc = .ok ps →
      (∀ p ∈ acc, fs.pathExists p.path = true) →
      ∀ p ∈ ps, fs.pathExists p.path = true := by
  intro eds
  induction eds with
  | nil =>
    intro acc ps h hacc
    rw [List.foldlM_nil] at h
    cases h
    exact hacc
  | cons e rest ih =>
    intro acc ps h hacc
    rw [List.foldlM_cons] at h
    cases hlp : list_projects fs e with
    | error err =>
      rw [show gpStep fs acc e = .error err by simp [gpStep, hlp]] at h
      cases h
    | ok ls =>
      rw [show gpStep fs acc e = .ok (acc ++ ls.filter (fun p => fs.pathExists p.path)) by
        simp [gpStep, hlp]] at h
      refine ih _ _ h ?_
      intro p hp
      rcases List.mem_append.mp hp with h1 | h2
      · exact hacc p h1
      · exact (List.mem_filter.mp h2).2

theorem listProjectsGo_all_empty (fs : FSState) (ide : JetBrainsIde) :
    ∀ l : List String, (∀ q ∈ l, fs.globConfigDirs q = []) →
      listProjectsGo fs ide l = .ok [] := by
  intro l
  induction l with
  | nil => intro _; rfl
  | cons p rest ih =>
    intro h
    rw [listProjectsGo, if_pos (h p (List.mem_cons_self p rest))]
    exact ih (fun q hq => h q (List.mem_cons_of_mem _ hq))

theorem listProjectsGo_first (fs : FSState) (ide : JetBrainsIde) :
    ∀ (l1 : List String) (pfx : String) (l2 : List String),
      (∀ q ∈ l1, fs.globConfigDirs q = []) →
      fs.globConfigDirs pfx ≠ [] →
      listProjectsGo fs ide (l1 ++ pfx :: l2) =
        tryReadDir fs ide (pySortedLast (fs.globConfigDirs pfx)) := by
  intro l1
  induction l1 with
  | nil =>
    intro pfx l2 _ hne
    rw [List.nil_append, listProjectsGo, if_neg hne]
  | cons q rest ih =>
    intro pfx l2 h hne
    rw [List.cons_append, listProjectsGo, if_pos (h q (List.mem_cons_self q rest))]
    exact ih pfx l2 (fun r hr => h r (List.mem_cons_of_mem _ hr)) hne

theorem strLeAux_refl : ∀ a : List Char, strLeAux a a = true := by
  intro a
  induction a with
  | nil => rfl
  | cons c cs ih => simp [strLeAux, ih]

theorem strLeAux_total : ∀ a b : List Char, strLeAux a b = true ∨ strLeAux b a = true := by
  intro a
  induction a with
  | nil => intro b; left; rfl
  | cons c cs ih =>
    intro b
    cases b with
    | nil => right; rfl
    | cons d ds =>
      rcases Nat.lt_trichotomy c.toNat d.toNat with h | h | h
      · left; simp [strLeAux, h]
      · rcases ih ds with h' | h'
        · left; simp [strLeAux, h, h']
        · right; simp [strLeAux, h.symm, h']
      · right; simp [strLeAux, h]

theorem strLeAux_trans : ∀ a b c : List Char,
    strLeAux a b = true → strLeAux b c = true → strLeAux a c = true := by
  intro a
  induction a with
  | nil => intro b c _ _; rfl
  | cons x xs ih =>
    intro b c hab hbc
    cases b with
    | nil => simp [strLeAux] at hab
    | cons y ys =>
      cases c with
      | nil => simp [strLeAux] at hbc
      | cons z zs =>
        rw [strLeAux] at hab hbc ⊢
        split at hab
        · -- x < y
          rename_i hxy
          split at hbc
          · rename_i hyz
            simp [show x.toNat < z.toNat by omega]
          · split at hbc
            · simp at hbc
            · rename_i hzy hyz
              have hyz' : y.toNat = z.toNat := by omega
              simp [show x.toNat < z.toNat by omega]
        · split at hab
          · simp at hab
          · rename_i hyx hxy
            have hxy' : x.toNat = y.toNat := by omega
            split at hbc
            · rename_i hyz
              simp [show x.toNat < z.toNat by omega]
            · split at hbc
              · simp at hbc
              · rename_i hzy hyz
                have hyz' : y.toNat = z.toNat := by omega
                have hxz : ¬ x.toNat < z.toNat := by omega
                have hzx : ¬ z.toNat < x.toNat := by omega
                simp [hxz, hzx]
                exact ih ys zs hab hbc

theorem strLe_total (a b : String) : strLe a b = true ∨ strLe b a = true :=
  strLeAux_total a.data b.data

theorem strLe_trans (a b c : String) :
    strLe a b = true → strLe b c = true → strLe a c = true :=
  strLeAux_trans a.data b.data c.data

theorem sorted_le_getLastD :
    ∀ l : List String, l.Sorted (fun a b => strLe a b = true) →
      ∀ x ∈ l, strLe x ((l.getLast?).getD "") = true := by
  intro l
  induction l with
  | nil => intro _ x hx; cases hx
  | cons a t ih =>
    intro hs x hx
    obtain ⟨ha, ht⟩ := List.sorted_cons.mp hs
    rcases List.mem_cons.mp hx with rfl | hx'
    · cases t with
      | nil => simpa using strLeAux_refl x.data
      | cons b t' =>
        have hmem : ((b :: t').getLast?).getD "" ∈ b :: t' := by
          rw [List.getLast?_eq_getLast_of_ne_nil (List.cons_ne_nil b t')]
          exact List.getLast_mem _
        rw [List.getLast?_cons_cons]
        exact ha _ hmem
    · cases t with
      | nil => cases hx'
      | cons b t' =>
        rw [List.getLast?_cons_cons]
        exact ih ht x hx'

theorem pySortedLast_mem {l : List String} (h : l ≠ []) : pySortedLast l ∈ l := by
  have hp := List.perm_insertionSort (fun a b : String => strLe a b = true) l
  have hne : l.insertionSort (fun a b : String => strLe a b = true) ≠ [] := by
    intro h0
    rw [h0] at hp
    exact h hp.symm.eq_nil
  rw [pySortedLast, List.getLast?_eq_getLast_of_ne_nil hne]
  exact hp.subset (List.getLast_mem hne)

theorem pySortedLast_ge {l : List String} : ∀ d ∈ l, strLe d (pySortedLast l) = true := by
  intro d hd
  have hp := List.perm_insertionSort (fun a b : String => strLe a b = true) l
  have hs := @List.sorted_insertionSort String (fun a b => strLe a b = true) _
    ⟨strLe_total⟩ ⟨fun a b c => strLe_trans a b c⟩ l
  exact sorted_le_getLastD _ hs d (hp.symm.subset hd)

theorem find_binary_eq_find? (which : String → Bool) :
    ∀ bs : List String, find_binary which bs = bs.find? which := by
  intro bs
  induction bs with
  | nil => rfl
  | cons b rest ih =>
    rw [find_binary]
    by_cases hw : which b
    · rw [if_pos hw, List.find?_cons_of_pos _ hw]
    · rw [if_neg hw, List.find?_cons_of_neg _ (by simpa using hw), ih]

theorem find_binary_some (which : String → Bool) :
    ∀ (bs : List String) (b : String), find_binary which bs = some b →
      which b = true ∧
      ∃ pre post, bs = pre ++ b :: post ∧ ∀ x ∈ pre, which x = false := by
  intro bs
  induction bs with
  | nil => intro b h; cases h
  | cons a rest ih =>
    intro b h
    rw [find_binary] at h
    by_cases hw : which a
    · rw [if_pos hw] at h
      cases h
      exact ⟨hw, [], rest, rfl, by intro x hx; cases hx⟩
    · rw [if_neg hw] at h
      obtain ⟨hb, pre, post, heq, hpre⟩ := ih b h
      refine ⟨hb, a :: pre, post, by rw [heq, List.cons_append], ?_⟩
      intro x hx
      rcases List.mem_cons.mp hx with rfl | hx'
      · simpa using hw
      · exact hpre x hx'

theorem length_filter_eq_length_iff {α : Type} (p : α → Bool) :
    ∀ l : List α, (l.filter p).length = l.length ↔ ∀ a ∈ l, p a = true := by
  intro l
  induction l with
  | nil => simp
  | cons a t ih =>
    rw [List.filter_cons]
    by_cases hp : p a = true
    · rw [if_pos hp]
      simp only [List.length_cons, List.mem_cons]
      constructor
      · intro h x hx
        rcases hx with rfl | hx'
        · exact hp
        · exact ih.mp (by omega) x hx'
      · intro h
        have := ih.mpr (fun x hx => h x (Or.inr hx))
        omega
    · rw [if_neg hp]
      constructor
      · intro h
        have hle := List.length_filter_le p t
        rw [List.length_cons] at h
        omega
      · intro h
        exact absurd (h a (List.mem_cons_self a t)) hp

/-! ## Claim theorems -/

/-- C1: the spec says `list_projects` never raises to its caller and that a
malformed XML file only empties that variant's list.  The isolation half does
hold (second conjunct: CLion's `ParseError` is caught and PyCharm's projects
still appear), but the never-raises half is violated: for an entry with no
timestamp whose project directory holds a differing `.iml` module file, the
`for` loop evaluates `int(last_opened)` with `last_opened = None` and the
resulting `TypeError` escapes the `except (ParseError, FileNotFoundError)`
handler (first conjunct). -/
theorem c1_never_raises_code_bug :
    list_projects fsNoTs pycharmIde = Except.error PyError.typeError ∧
    get_projects fsIsol [clionIde, pycharmIde] =
      Except.ok [{ name := "ok", path := "/home/u/ok", last_opened := 7, ide := pycharmIde }] :=
  ⟨rfl, rfl⟩

/-- C2: an entry whose `projectOpenTimestamp` tag lacks the `value` attribute
is dropped gracefully only when its directory has no `.iml` file with a
differing stripped name (first conjunct); when such a module file exists the
parser raises `TypeError` (`int(None)` in the module loop) instead of
emitting no Project for the entry (second conjunct). -/
theorem c2_missing_timestamp_code_bug :
    list_projects fsTagNoValueNoIml pycharmIde = Except.ok [] ∧
    list_projects fsTagNoValue pycharmIde = Except.error PyError.typeError :=
  ⟨rfl, rfl⟩

/-- C3: the body of `_make_item` builds exactly the entry the claim describes
— identity key `binary-path-timestamp`, text = project name, subtext =
project path, icon from the owning IDE, and one Open action running
`[binary, path]` detached (first conjunct) — but the call site
`self._make_item(project)` passes a single argument to the two-parameter
staticmethod, so `Plugin.items` raises `TypeError` on every non-empty match
list instead of constructing the entries (second conjunct). -/
theorem c3_presenter_code_bug :
    make_item pycharmIde
        { name := "app", path := "/home/u/work/app",
          last_opened := 1700000000, ide := pycharmIde } =
      { id := "pycharm-/home/u/work/app-1700000000"
        text := "app"
        subtext := "/home/u/work/app"
        input_action_text := "app"
        iconPath := "icons/pycharm.svg"
        actions := [{ id := "Open", text := "Open in PyCharm",
                      argv := [some "pycharm", some "/home/u/work/app"] }] } ∧
    items [pycharmIde] false fsOneApp (fun _ => true) = Except.error PyError.typeError :=
  ⟨rfl, rfl⟩

/-- C4: an XML entry with key `$USER_HOME$/work/app` and timestamp value
`1700000000` yields, first in its entry's output, a Project whose path is the
host home directory followed by `/work/app`, whose name is `app`, and whose
`last_opened` is the integer 1700000000 — for every host state and owning
IDE (the remaining `rest` holds the module-file-derived siblings, if any). -/
theorem c4_roundtrip (fs : FSState) (ide : JetBrainsIde) :
    ∃ rest, parseEntry fs ide
        { key := "$USER_HOME$/work/app",
          timestampTag := some { value := some "1700000000" } } =
      Except.ok ({ name := "app",
                   path := fs.home ++ "/work/app",
                   last_opened := 1700000000,
                   ide := ide } :: rest) := by
  have hpp := pyReplace_key_userHome fs.home
  have h4 : pyReplace "$USER_HOME$/work/app" "$USER_HOME$" fs.home ≠ "" := by
    rw [hpp]
    intro hcontra
    have hd := congrArg String.data hcontra
    rw [String.data_append] at hd
    simp at hd
  refine ⟨(fs.imlGlob (fs.home ++ "/work/app" ++ "/.idea")).filterMap
    (modProjOf ide "app" (fs.home ++ "/work/app") 1700000000), ?_⟩
  have h := parseEntry_ok fs ide
    { key := "$USER_HOME$/work/app", timestampTag := some { value := some "1700000000" } }
    "1700000000" 1700000000 rfl (by decide) (by decide) h4
  rw [h, hpp, pathName_slash_work_app]

/-- C5 counterexample: for the directory `/r/a.iml` (directory-derived name
`a.iml`, first conjunct) whose `.idea` folder holds the single module file
`a.iml.iml` — base name `a.iml`, equal to the directory-derived name — the
claim predicts no additional Project, yet the code emits a second Project
named `a`, because `file.name.replace(".iml", "")` deletes every occurrence
of `.iml`, not just the final suffix. -/
theorem c5_module_files_counterexample :
    pathName "/r/a.iml" = "a.iml" ∧
    parseEntry fsC5 pycharmIde entryC5 =
      Except.ok [{ name := "a.iml", path := "/r/a.iml", last_opened := 5, ide := pycharmIde },
                 { name := "a", path := "/r/a.iml", last_opened := 5, ide := pycharmIde }] :=
  ⟨rfl, rfl⟩

/-- C5 (amended): for an entry whose path is truthy and whose timestamp
parses, the entry's output is the directory-level Project followed by, for
each module file of `<path>/.idea` in glob order, one additional Project
exactly when the name obtained from the file name by deleting every
occurrence of the substring `.iml` differs from the directory-derived name;
the additional Project carries that stripped name (which is `X` for a file
`X.iml` whenever `X` itself contains no `.iml`) with the directory's path and
timestamp (first conjunct, via `modProjOf`, over arbitrarily many module
files).  In particular every module file with a differing stripped name
contributes its Project to the output (second conjunct), and the number of
additional Projects equals the number of module files with a differing
stripped name — files whose stripped name equals the directory-derived name
contribute nothing (third conjunct). -/
theorem c5_module_files_amended (fs : FSState) (ide : JetBrainsIde) (entry : Entry)
    (s : String) (n : Int)
    (h1 : entry.timestampTag.bind (fun t => t.value) = some s)
    (h2 : s ≠ "") (h3 : pyParseInt s = some n)
    (h4 : pyReplace entry.key "$USER_HOME$" fs.home ≠ "") :
    parseEntry fs ide entry = Except.ok
      ({ name := pathName (pyReplace entry.key "$USER_HOME$" fs.home),
         path := pyReplace entry.key "$USER_HOME$" fs.home,
         last_opened := n, ide := ide } ::
        (fs.imlGlob (pyReplace entry.key "$USER_HOME$" fs.home ++ "/.idea")).filterMap
          (modProjOf ide (pathName (pyReplace entry.key "$USER_HOME$" fs.home))
            (pyReplace entry.key "$USER_HOME$" fs.home) n)) ∧
    (∀ f ∈ fs.imlGlob (pyReplace entry.key "$USER_HOME$" fs.home ++ "/.idea"),
      pyReplace f ".iml" "" ≠ pathName (pyReplace entry.key "$USER_HOME$" fs.home) →
      { name := pyReplace f ".iml" "",
        path := pyReplace entry.key "$USER_HOME$" fs.home,
        last_opened := n, ide := ide } ∈
        (fs.imlGlob (pyReplace entry.key "$USER_HOME$" fs.home ++ "/.idea")).filterMap
          (modProjOf ide (pathName (pyReplace entry.key "$USER_HOME$" fs.home))
            (pyReplace entry.key "$USER_HOME$" fs.home) n)) ∧
    ((fs.imlGlob (pyReplace entry.key "$USER_HOME$" fs.home ++ "/.idea")).filterMap
        (modProjOf ide (pathName (pyReplace entry.key "$USER_HOME$" fs.home))
          (pyReplace entry.key "$USER_HOME$" fs.home) n)).length =
      ((fs.imlGlob (pyReplace entry.key "$USER_HOME$" fs.home ++ "/.idea")).filter
        (fun f => pyReplace f ".iml" "" ≠
          pathName (pyReplace entry.key "$USER_HOME$" fs.home))).length := by
  refine ⟨parseEntry_ok fs ide entry s n h1 h2 h3 h4, ?_, ?_⟩
  · intro f hf hne
    exact List.mem_filterMap.mpr ⟨f, hf, by simp [modProjOf, hne]⟩
  · exact filterMap_modProjOf_length ide _ _ n _

/-- C5 witness: the directory `/q/app` (name `app`) with module files
`foo.iml`, `app.iml` and `bar.iml` yields the directory Project plus two
additional Projects named `foo` and `bar` — `app.iml` (stripped name equal to
the directory-derived name) contributes nothing. -/
theorem c5_module_files_amended_witness :
    parseEntry fsC5w pycharmIde
        { key := "/q/app", timestampTag := some { value := some "5" } } =
      Except.ok [{ name := "app", path := "/q/app", last_opened := 5, ide := pycharmIde },
                 { name := "foo", path := "/q/app", last_opened := 5, ide := pycharmIde },
                 { name := "bar", path := "/q/app", last_opened := 5, ide := pycharmIde }] :=
  (c5_module_files_amended fsC5w pycharmIde
    { key := "/q/app", timestampTag := some { value := some "5" } }
    "5" 5 rfl (by decide) (by decide) (by decide)).1

/-- C6: `list_projects` walks `config_dir_prefixes` in declared order.  If no
declared prefix has a matching config directory the result is `[]` (first
conjunct).  Otherwise, at the first prefix whose glob is non-empty, the
directory that is read is `sorted(dirs)[-1]` — a member of that glob that is
lexicographically greatest — and the whole result equals the try-block
applied to that single directory: later prefixes and the other matching
directories are never consulted (second conjunct). -/
theorem c6_config_dir_selection (fs : FSState) (ide : JetBrainsIde) :
    ((∀ q ∈ ide.config_dir_prefixes, fs.globConfigDirs q = []) →
      list_projects fs ide = Except.ok []) ∧
    (∀ (l1 : List String) (pfx : String) (l2 : List String),
      ide.config_dir_prefixes = l1 ++ pfx :: l2 →
      (∀ q ∈ l1, fs.globConfigDirs q = []) →
      fs.globConfigDirs pfx ≠ [] →
      pySortedLast (fs.globConfigDirs pfx) ∈ fs.globConfigDirs pfx ∧
      (∀ d ∈ fs.globConfigDirs pfx,
        strLe d (pySortedLast (fs.globConfigDirs pfx)) = true) ∧
      list_projects fs ide = tryReadDir fs ide (pySortedLast (fs.globConfigDirs pfx))) := by
  constructor
  · intro h
    rw [list_projects]
    exact listProjectsGo_all_empty fs ide _ h
  · intro l1 pfx l2 hsplit hbefore hne
    refine ⟨pySortedLast_mem hne, fun d hd => pySortedLast_ge d hd, ?_⟩
    rw [list_projects, hsplit]
    exact listProjectsGo_first fs ide l1 pfx l2 hbefore hne

/-- C6 witness: with three PyCharm version directories, the selected one is a
maximal member of the glob and `list_projects` equals the try-block on it. -/
theorem c6_config_dir_selection_witness :
    pySortedLast (fsC6.globConfigDirs "JetBrains/PyCharm") ∈
      fsC6.globConfigDirs "JetBrains/PyCharm" ∧
    (∀ d ∈ fsC6.globConfigDirs "JetBrains/PyCharm",
      strLe d (pySortedLast (fsC6.globConfigDirs "JetBrains/PyCharm")) = true) ∧
    list_projects fsC6 pycharmIde =
      tryReadDir fsC6 pycharmIde (pySortedLast (fsC6.globConfigDirs "JetBrains/PyCharm")) :=
  (c6_config_dir_selection fsC6 pycharmIde).2 [] "JetBrains/PyCharm" []
    rfl (fun q hq => absurd hq (List.not_mem_nil q)) (by decide)

/-- C7: the matched projects with `last_opened` values [100, 300, 200] are
sorted to [300, 200, 100] by the descending sort (first two conjuncts), but
the handler then raises `TypeError` at the one-argument
`self._make_item(project)` call instead of returning the ordered entries
(third conjunct). -/
theorem c7_order_code_bug :
    get_projects fsC7 [pycharmIde] = Except.ok
      [{ name := "a", path := "/h/a", last_opened := 100, ide := pycharmIde },
       { name := "b", path := "/h/b", last_opened := 300, ide := pycharmIde },
       { name := "c", path := "/h/c", last_opened := 200, ide := pycharmIde }] ∧
    sortLastOpenedDesc (matchedProjects false (fun _ => true)
      [{ name := "a", path := "/h/a", last_opened := 100, ide := pycharmIde },
       { name := "b", path := "/h/b", last_opened := 300, ide := pycharmIde },
       { name := "c", path := "/h/c", last_opened := 200, ide := pycharmIde }]) =
      [{ name := "b", path := "/h/b", last_opened := 300, ide := pycharmIde },
       { name := "c", path := "/h/c", last_opened := 200, ide := pycharmIde },
       { name := "a", path := "/h/a", last_opened := 100, ide := pycharmIde }] ∧
    items [pycharmIde] false fsC7 (fun _ => true) = Except.error PyError.typeError :=
  ⟨rfl, rfl, rfl⟩

/-- C8: the matcher is applied to `{name}` when `match_path` is false and to
`{name, path}` when it is true: a matcher hitting only the path selects
nothing in the first case (and the handler returns an empty batch) and
selects the project in the second (first three conjuncts); but instead of
yielding that project the handler then raises `TypeError` at the
`self._make_item(project)` call (last conjunct). -/
theorem c8_match_path_code_bug :
    matchedProjects false (fun s => s == "/srv/special")
      [{ name := "special", path := "/srv/special", last_opened := 9, ide := pycharmIde }] =
      [] ∧
    matchedProjects true (fun s => s == "/srv/special")
      [{ name := "special", path := "/srv/special", last_opened := 9, ide := pycharmIde }] =
      [{ name := "special", path := "/srv/special", last_opened := 9, ide := pycharmIde }] ∧
    items [pycharmIde] false fsC8 (fun s => s == "/srv/special") = Except.ok [] ∧
    items [pycharmIde] true fsC8 (fun s => s == "/srv/special") =
      Except.error PyError.typeError :=
  ⟨rfl, rfl, rfl, rfl⟩

/-- C9: whenever `_get_projects` returns a list, every project in it passed
the `Path(project.path).exists()` check of that very query — so a project
whose path no longer exists is absent from the aggregate even when present in
the parsed recent-projects file. -/
theorem c9_existence_filter (fs : FSState) (editors : List JetBrainsIde)
    (ps : List Project) (h : get_projects fs editors = Except.ok ps) :
    ∀ p ∈ ps, fs.pathExists p.path = true := by
  rw [get_projects] at h
  exact gpFold_path_exists fs editors [] ps h (fun p hp => absurd hp (List.not_mem_nil p))

/-- C9 witness: of the two parsed projects only `/live` exists on disk; the
aggregate contains exactly it, and the theorem applies to that aggregate. -/
theorem c9_existence_filter_witness :
    get_projects fsC9 [pycharmIde] =
      Except.ok [{ name := "live", path := "/live", last_opened := 1, ide := pycharmIde }] ∧
    ∀ p ∈ [({ name := "live", path := "/live", last_opened := 1, ide := pycharmIde } : Project)],
      fsC9.pathExists p.path = true :=
  ⟨rfl, c9_existence_filter fsC9 [pycharmIde]
    [{ name := "live", path := "/live", last_opened := 1, ide := pycharmIde }] rfl⟩

/-- C10: for every host `which` oracle, each retained editor has a non-null
binary; every table entry without a resolvable binary is excluded from the
active registry; `_find_binary` returns precisely the first candidate that
`which` finds (with all earlier candidates failing); the registry is never
larger than the table, with equality exactly when every table entry's binary
resolves. -/
theorem c10_registry_filter (which : String → Bool) (icons_dir : String) :
    (∀ e ∈ get_editors which icons_dir, e.binary ≠ none) ∧
    (∀ e ∈ editorsTable which icons_dir, e.binary = none →
      e ∉ get_editors which icons_dir) ∧
    (∀ (bs : List String) (b : String), find_binary which bs = some b →
      which b = true ∧
      ∃ pre post, bs = pre ++ b :: post ∧ ∀ x ∈ pre, which x = false) ∧
    (get_editors which icons_dir).length ≤ (editorsTable which icons_dir).length ∧
    ((get_editors which icons_dir).length = (editorsTable which icons_dir).length ↔
      ∀ e ∈ editorsTable which icons_dir, e.binary ≠ none) := by
  refine ⟨?_, ?_, ?_, ?_, ?_⟩
  · intro e he
    exact Option.isSome_iff_ne_none.mp (List.mem_filter.mp he).2
  · intro e _ hnone hmem
    have hs := (List.mem_filter.mp hmem).2
    rw [hnone] at hs
    cases hs
  · intro bs b h
    exact find_binary_some which bs b h
  · exact List.length_filter_le _ _
  · rw [get_editors, length_filter_eq_length_iff]
    constructor
    · intro h e he
      exact Option.isSome_iff_ne_none.mp (h e he)
    · intro h e he
      exact Option.isSome_iff_ne_none.mpr (h e he)

/-- C10 witness: on a host where only `pycharm` and `rider` are on the PATH,
the retained PyCharm entry has a non-null binary. -/
theorem c10_registry_filter_witness :
    (mkIde whichC10 "PyCharm" ("icons" ++ "/pycharm.svg") ["JetBrains/PyCharm"]
      ["charm", "pycharm", "pycharm-eap", "pycharm-professional"] IdeKind.generic).binary ≠
      none :=
  (c10_registry_filter whichC10 "icons").1 _ (by decide)
